import Mathlib

/-!
Verification development for the Allahabad HC case-monitoring repository.

Shallow embedding of the change-detection and notification-dispatch
pipeline: `src/services/changeDetectionService.js`,
`src/services/monitoringService.js`, `src/services/whatsappService.js`
and the Case model's hash method (`src/unnamed/part_002`).

JavaScript values are modelled by the inductive `JsValue`.  `null` and
`undefined` are kept as separate constructors because JSON serialization
distinguishes them (an `undefined` property is dropped, a `null` one is
kept); every other embedded code path treats them identically.  Numbers
are restricted to integers: the embedded code performs no arithmetic on
numeric field values.  Host-runtime coercions that the source delegates
to the JavaScript engine (date parsing, date formatting) are collected
in a `JsHost` parameter; theorems quantify over the host where the
property does not depend on it and instantiate a concrete sample host
in closed examples.
-/

inductive JsValue where
  | null
  | undef
  | bool (b : Bool)
  | num (n : Int)
  | str (s : String)
  | date (t : Int)
  | arr (elems : List JsValue)
  | obj (fields : List (String × JsValue))

/-- Host-runtime operations the source delegates to the JavaScript engine. -/
structure JsHost where
  /-- `new Date(v).getTime()` for a non-`Date` truthy value; `none` models an invalid date. -/
  parseDate : JsValue → Option Int
  /-- `Date.prototype.toString`. -/
  dateToString : Int → String
  /-- `Date.prototype.toISOString`. -/
  dateToISOString : Int → String
  /-- `Date.prototype.toLocaleDateString('en-IN', ...)` as used by `formatDate`. -/
  formatDateLocale : Int → String

/-- `v === null || v === undefined`. -/
def JsValue.isNullish : JsValue → Bool
  | .null => true
  | .undef => true
  | _ => false

/-- JavaScript falsiness: `null`, `undefined`, `''`, `0` and `false` are falsy. -/
def jsFalsy : JsValue → Bool
  | .null => true
  | .undef => true
  | .str s => s = ""
  | .num n => n = 0
  | .bool b => !b
  | _ => false

/-- `typeof v === 'object'` (true for `null`, arrays, plain objects and `Date`s). -/
def isTypeofObject : JsValue → Bool
  | .null => true
  | .arr _ => true
  | .obj _ => true
  | .date _ => true
  | _ => false

/-- Property read `base[key]` for a non-nullish base: objects yield the stored
value (`undefined` when absent), other non-nullish values yield `undefined`
for the property names used by the embedded code.  A nullish base throws in
JavaScript; that case is handled by the caller (`detectChanges`) before any
field is read. -/
def getField : JsValue → String → JsValue
  | .obj fields, key =>
    match fields.lookup key with
    | some v => v
    | none => .undef
  | _, _ => .undef

mutual

/-- `String(v)` / template-literal interpolation of a value. -/
def jsToString (host : JsHost) : JsValue → String
  | .null => "null"
  | .undef => "undefined"
  | .bool b => if b then "true" else "false"
  | .num n => toString n
  | .str s => s
  | .date t => host.dateToString t
  | .arr elems => String.intercalate "," (jsToStringElems host elems)
  | .obj _ => "[object Object]"

/-- Array elements under `Array.prototype.toString`: `null` and `undefined`
render as the empty string. -/
def jsToStringElems (host : JsHost) : List JsValue → List String
  | [] => []
  | e :: rest =>
    (match e with
     | .null => ""
     | .undef => ""
     | v => jsToString host v) :: jsToStringElems host rest

end

def hexDigit (n : Nat) : Char :=
  if n < 10 then Char.ofNat (48 + n) else Char.ofNat (87 + n)

/-- JSON string escaping for one character. -/
def jsonEscapeChar (c : Char) : String :=
  if c = '"' then "\\\""
  else if c = '\\' then "\\\\"
  else if c = '\n' then "\\n"
  else if c = '\r' then "\\r"
  else if c = '\t' then "\\t"
  else if c.toNat < 32 then
    "\\u00" ++ String.singleton (hexDigit (c.toNat / 16)) ++ String.singleton (hexDigit (c.toNat % 16))
  else String.singleton c

/-- A JSON string literal. -/
def jsonQuote (s : String) : String :=
  "\"" ++ String.join (s.data.map jsonEscapeChar) ++ "\""

mutual

/-- `JSON.stringify(v)` without a replacer.  Returns `none` exactly when the
value is `undefined` (which JSON omits); `Date`s serialize through their ISO
form. -/
def jsonStringify (host : JsHost) : JsValue → Option String
  | .undef => none
  | .null => some "null"
  | .bool b => some (if b then "true" else "false")
  | .num n => some (toString n)
  | .str s => some (jsonQuote s)
  | .date t => some (jsonQuote (host.dateToISOString t))
  | .arr elems => some ("[" ++ String.intercalate "," (jsonStringifyElems host elems) ++ "]")
  | .obj fields => some ("\x7b" ++ String.intercalate "," (jsonStringifyFields host fields) ++ "\x7d")

/-- Array elements: an unserializable element renders as `null`. -/
def jsonStringifyElems (host : JsHost) : List JsValue → List String
  | [] => []
  | e :: rest =>
    (match jsonStringify host e with
     | some s => s
     | none => "null") :: jsonStringifyElems host rest

/-- Object properties: a property whose value serializes to `undefined` is dropped. -/
def jsonStringifyFields (host : JsHost) : List (String × JsValue) → List String
  | [] => []
  | (k, v) :: rest =>
    (match jsonStringify host v with
     | some s => [jsonQuote k ++ ":" ++ s]
     | none => []) ++ jsonStringifyFields host rest

end

/-- Reorder serialized object properties into whitelist order, rendering each
surviving property as `"key":value`.  A whitelisted key absent from the object,
or present with an unserializable (`undefined`) value, is dropped. -/
def renderKeyOrder (keys : List String) (rendered : List (String × Option String)) : List String :=
  keys.filterMap fun k =>
    match rendered.lookup k with
    | some (some s) => some (jsonQuote k ++ ":" ++ s)
    | _ => none

mutual

/-- `JSON.stringify(v, keys)` with an array replacer: the key whitelist
applies to every object encountered at any depth, and object properties are
emitted in whitelist order; array elements are never filtered.  (The values
are serialized by a structural pass over the stored fields and then reordered
by the whitelist, which agrees with the ECMA-262 `SerializeJSONObject` walk
over the property list because real JavaScript objects have unique keys.) -/
def jsonStringifyK (host : JsHost) (keys : List String) : JsValue → Option String
  | .undef => none
  | .null => some "null"
  | .bool b => some (if b then "true" else "false")
  | .num n => some (toString n)
  | .str s => some (jsonQuote s)
  | .date t => some (jsonQuote (host.dateToISOString t))
  | .arr elems => some ("[" ++ String.intercalate "," (jsonStringifyKElems host keys elems) ++ "]")
  | .obj fields =>
    some ("\x7b" ++ String.intercalate "," (renderKeyOrder keys (jsonStringifyKFields host keys fields)) ++ "\x7d")

def jsonStringifyKElems (host : JsHost) (keys : List String) : List JsValue → List String
  | [] => []
  | e :: rest =>
    (match jsonStringifyK host keys e with
     | some s => s
     | none => "null") :: jsonStringifyKElems host keys rest

/-- Serialize every stored field's value under the whitelist. -/
def jsonStringifyKFields (host : JsHost) (keys : List String) : List (String × JsValue) → List (String × Option String)
  | [] => []
  | (k, v) :: rest => (k, jsonStringifyK host keys v) :: jsonStringifyKFields host keys rest

end

/-- `String.prototype.trim` restricted to whitespace trimming (the engine also
strips a few Unicode separators; the embedded data is ASCII). -/
def jsTrim (s : String) : String :=
  String.mk (((s.data.dropWhile Char.isWhitespace).reverse.dropWhile Char.isWhitespace).reverse)

/-- ASCII lower-casing of one character (`String.prototype.toLowerCase` is
Unicode-aware; the embedded data is ASCII). -/
def jsCharToLower (c : Char) : Char :=
  if 'A' ≤ c && c ≤ 'Z' then Char.ofNat (c.toNat + 32) else c

/-- `String.prototype.toLowerCase` on ASCII data. -/
def jsToLower (s : String) : String :=
  String.mk (s.data.map jsCharToLower)

/-- Code-unit lexicographic comparison of character lists (the order the
JavaScript default sort uses; identical to codepoint order on ASCII). -/
def charListLe : List Char → List Char → Bool
  | [], _ => true
  | _ :: _, [] => false
  | a :: as, b :: bs =>
    if a.toNat < b.toNat then true
    else if b.toNat < a.toNat then false
    else charListLe as bs

/-- String comparison for the default sort. -/
def strLe (a b : String) : Bool :=
  charListLe a.data b.data

/-- `String.prototype.startsWith`. -/
def strStartsWith (s pre : String) : Bool :=
  s.data.take pre.data.length = pre.data

/-- Insert a value into an already-sorted list after all elements whose string
key is `≤` its own, preserving the stable order of the JavaScript default sort. -/
def jsSortInsert (host : JsHost) (v : JsValue) : List JsValue → List JsValue
  | [] => [v]
  | y :: ys =>
    if strLe (jsToString host y) (jsToString host v) then y :: jsSortInsert host v ys
    else v :: y :: ys

/-- `Array.prototype.sort()` with no comparator: elements are ordered by their
string representation (code-unit order, which agrees with Lean's `String` order
on the ASCII data these claims evaluate), `undefined` elements go to the end,
and the sort is stable. -/
def jsArraySort (host : JsHost) (xs : List JsValue) : List JsValue :=
  let defined := xs.filter fun v => match v with | .undef => false | _ => true
  let undefs := xs.filter fun v => match v with | .undef => true | _ => false
  (defined.foldl (fun acc v => jsSortInsert host v acc) []) ++ undefs

/-- Stable insertion for sorting a list of strings (`Array.prototype.sort()` on keys). -/
def strSortInsert (x : String) : List String → List String
  | [] => [x]
  | y :: ys => if strLe y x then y :: strSortInsert x ys else x :: y :: ys

/-- `keys.sort()` for a list of strings. -/
def strSort (l : List String) : List String :=
  l.foldl (fun acc x => strSortInsert x acc) []

/-!
Embedding of `src/services/changeDetectionService.js`.
-/

/-- `ChangeDetectionService.normalizeDate` (lines 203-213): falsy input gives
`null`; a `Date` instance is returned as-is; anything else goes through
`new Date(...)`, with an invalid parse giving `null`. -/
def normalizeDate (host : JsHost) (v : JsValue) : Option Int :=
  if jsFalsy v then none
  else match v with
    | .date t => some t
    | other => host.parseDate other

/-- `ChangeDetectionService.compareDates` (lines 160-168). -/
def compareDates (host : JsHost) (oldDate newDate : JsValue) : Bool :=
  match normalizeDate host oldDate, normalizeDate host newDate with
  | none, none => false
  | none, some _ => true
  | some _, none => true
  | some a, some b => a ≠ b

/-- `(x || '').toString().trim().toLowerCase()` as used by `compareStrings`. -/
def jsStrNorm (host : JsHost) (v : JsValue) : String :=
  jsToLower (jsTrim (if jsFalsy v then "" else jsToString host v))

/-- `ChangeDetectionService.compareStrings` (lines 176-180): case-insensitive,
trim-insensitive inequality. -/
def compareStrings (host : JsHost) (oldStr newStr : JsValue) : Bool :=
  jsStrNorm host oldStr ≠ jsStrNorm host newStr

/-- A non-array argument is replaced by `[]` (lines 189-190). -/
def toArray : JsValue → List JsValue
  | .arr xs => xs
  | _ => []

/-- `ChangeDetectionService.compareArrays` (lines 188-196), kept line-for-line:
the length-inequality early return (line 192) precedes the growth-only check
(line 195), which is therefore only ever reached with equal lengths. -/
def compareArrays (oldArr newArr : JsValue) : Bool :=
  let oldArray := toArray oldArr
  let newArray := toArray newArr
  if oldArray.length ≠ newArray.length then true
  else decide (newArray.length > oldArray.length)

/-- `ChangeDetectionService.formatDate` (lines 220-229). -/
def formatDate (host : JsHost) (v : JsValue) : String :=
  match normalizeDate host v with
  | none => "Not set"
  | some t => host.formatDateLocale t

/-- One field comparison result (the object built in `compareField`, lines 89-95). -/
structure FieldChange where
  hasChange : Bool
  oldValue : JsValue
  newValue : JsValue
  changeType : Option String
  description : String

/-- `ChangeDetectionService.compareField` (lines 88-152).  The result records
the original argument values; the comparison itself runs on locally
null-coerced copies (lines 98-103). -/
def compareField (host : JsHost) (fieldName : String) (oldValue0 newValue0 : JsValue) : FieldChange :=
  let oldValue := if oldValue0.isNullish then .str "" else oldValue0
  let newValue := if newValue0.isNullish then .str "" else newValue0
  if fieldName = "nextHearingDate" || fieldName = "firstHearingDate" then
    let h := compareDates host oldValue newValue
    { hasChange := h, oldValue := oldValue0, newValue := newValue0,
      changeType := if h then some "date_change" else none,
      description :=
        if h then fieldName ++ " changed from " ++ formatDate host oldValue ++ " to " ++ formatDate host newValue
        else "" }
  else if fieldName = "listingHistory" then
    let h := compareArrays oldValue newValue
    { hasChange := h, oldValue := oldValue0, newValue := newValue0,
      changeType := if h then some "array_change" else none,
      description := if h then "New entries added to listing history" else "" }
  else if fieldName = "iaApplications" then
    let h := compareArrays oldValue newValue
    { hasChange := h, oldValue := oldValue0, newValue := newValue0,
      changeType := if h then some "array_change" else none,
      description := if h then "IA applications updated" else "" }
  else if fieldName = "caseStatus" || fieldName = "stageOfCase" || fieldName = "coram" then
    let h := compareStrings host oldValue newValue
    { hasChange := h, oldValue := oldValue0, newValue := newValue0,
      changeType := if h then some "status_change" else none,
      description :=
        if h then fieldName ++ " changed from \"" ++ jsToString host oldValue ++ "\" to \"" ++ jsToString host newValue ++ "\""
        else "" }
  else
    let h := compareStrings host oldValue newValue
    { hasChange := h, oldValue := oldValue0, newValue := newValue0,
      changeType := if h then some "general_change" else none,
      description := if h then fieldName ++ " has been updated" else "" }

/-- `this.significantFields` (constructor, lines 9-18). -/
def significantFields : List String :=
  ["caseStatus", "nextHearingDate", "firstHearingDate", "stageOfCase",
   "coram", "orderDetails", "listingHistory", "iaApplications"]

/-- `this.criticalFields` (constructor, lines 20-24). -/
def criticalFields : List String :=
  ["caseStatus", "nextHearingDate", "stageOfCase"]

/-- The aggregate result object built by `detectChanges` (lines 35-43 plus the
hash fields attached at lines 69-70). -/
structure ChangeSet where
  hasChanges : Bool
  hasCriticalChanges : Bool
  changedFields : List String
  criticalChanges : List String
  detailedChanges : List (String × FieldChange)
  changesSummary : String
  notificationPriority : String
  newDataHash : String
  oldDataHash : JsValue

/-- The initial `changes` object (lines 35-43); the hash fields do not exist
yet and are initialized to their pre-assignment placeholders. -/
def initialChangeSet : ChangeSet :=
  { hasChanges := false, hasCriticalChanges := false, changedFields := [],
    criticalChanges := [], detailedChanges := [], changesSummary := "",
    notificationPriority := "low", newDataHash := "", oldDataHash := .undef }

/-- `ChangeDetectionService.determineNotificationPriority` (lines 236-255). -/
def determineNotificationPriority (changes : ChangeSet) : String :=
  if !changes.hasChanges then "none"
  else if changes.hasCriticalChanges then
    if changes.criticalChanges.contains "nextHearingDate" then "urgent"
    else if changes.criticalChanges.contains "caseStatus" then "high"
    else "high"
  else if changes.changedFields.contains "listingHistory" then "medium"
  else "low"

/-- `ChangeDetectionService.generateChangesSummary` (lines 262-286).  The
`detailedChanges[field]` read cannot miss for fields recorded in
`changedFields`/`criticalChanges`; an absent key defaults to the empty
description to keep the function total. -/
def generateChangesSummary (changes : ChangeSet) : String :=
  if !changes.hasChanges then "No changes detected"
  else
    let descOf := fun f =>
      match changes.detailedChanges.lookup f with
      | some fc => fc.description
      | none => ""
    let criticalParts :=
      if changes.hasCriticalChanges then changes.criticalChanges.map (fun f => "🔴 " ++ descOf f)
      else []
    let otherParts :=
      (changes.changedFields.filter fun f => !changes.criticalChanges.contains f).map
        fun f => "🔵 " ++ descOf f
    String.intercalate "\n" (criticalParts ++ otherParts)

/-- The per-value normalization inside `generateDataHash` (lines 299-312):
dates to ISO strings, arrays mapped element-wise (objects pre-serialized with
`JSON.stringify`) then default-sorted, strings trimmed and lower-cased. -/
def normalizeHashValue (host : JsHost) (v : JsValue) : JsValue :=
  match v with
  | .date t => .str (host.dateToISOString t)
  | .arr xs =>
    .arr (jsArraySort host (xs.map fun item =>
      if isTypeofObject item then
        .str (match jsonStringify host item with | some s => s | none => "undefined")
      else item))
  | .str s => .str (jsToLower (jsTrim s))
  | other => other

/-- `ChangeDetectionService.generateDataHash` (lines 293-322), modelled up to
the final `crypto.createHash('md5')` step: the model's fingerprint is the
exact string fed to MD5 (`JSON.stringify(normalizedData, sortedKeys)`).  MD5
is a fixed deterministic function, so equal model fingerprints give equal
digests; the repository's hash-based change tracking itself relies on the
digests of distinct inputs being distinct.  The source's surrounding
try/catch (returning `''`) is unreachable for the total model.  -/
def generateDataHash (host : JsHost) (caseData : JsValue) : String :=
  let normalizedData := significantFields.map fun f => (f, normalizeHashValue host (getField caseData f))
  let sortedKeys := strSort significantFields
  (jsonStringifyK host sortedKeys (.obj normalizedData)).getD ""

/-- The loop body of `detectChanges` (lines 46-60) for one significant field. -/
def detectStep (host : JsHost) (oldCaseData newCaseData : JsValue) (changes : ChangeSet) (field : String) : ChangeSet :=
  let fieldChange := compareField host field (getField oldCaseData field) (getField newCaseData field)
  if fieldChange.hasChange then
    let changes1 :=
      { changes with
          hasChanges := true,
          changedFields := changes.changedFields ++ [field],
          detailedChanges := changes.detailedChanges ++ [(field, fieldChange)] }
    if criticalFields.contains field then
      { changes1 with
          hasCriticalChanges := true,
          criticalChanges := changes1.criticalChanges ++ [field] }
    else changes1
  else changes

/-- The body of `ChangeDetectionService.detectChanges` (lines 35-73) for
non-nullish arguments: fold the fields, derive the priority, build the
summary, attach the two hashes (`oldCaseData.dataHash || generateDataHash`,
line 70). -/
def detectChangesCore (host : JsHost) (oldCaseData newCaseData : JsValue) : ChangeSet :=
  let c1 := significantFields.foldl (detectStep host oldCaseData newCaseData) initialChangeSet
  let c2 := { c1 with notificationPriority := determineNotificationPriority c1 }
  let c3 := { c2 with changesSummary := generateChangesSummary c2 }
  let c4 := { c3 with newDataHash := generateDataHash host newCaseData }
  let storedHash := getField oldCaseData "dataHash"
  { c4 with oldDataHash := if jsFalsy storedHash then .str (generateDataHash host oldCaseData) else storedHash }

/-- `ChangeDetectionService.detectChanges` (lines 33-79).  A nullish argument
makes the first property read (line 47) throw a `TypeError`, which the catch
block logs and rethrows (lines 75-78); every other input runs the pure body.
`validateInput` is never consulted on this path. -/
def detectChanges (host : JsHost) (oldCaseData newCaseData : JsValue) : Except String ChangeSet :=
  if oldCaseData.isNullish then .error "TypeError: Cannot read properties of null"
  else if newCaseData.isNullish then .error "TypeError: Cannot read properties of null"
  else .ok (detectChangesCore host oldCaseData newCaseData)

/-- `ChangeDetectionService.validateInput` (lines 357-369): `!oldData || !newData`
is a falsiness test, then `typeof !== 'object'` rejects non-object values. -/
def validateInput (oldData newData : JsValue) : Bool :=
  if jsFalsy oldData || jsFalsy newData then false
  else if !isTypeofObject oldData || !isTypeofObject newData then false
  else true

/-!
Embedding of the Case model's own hash method,
`caseSchema.methods.generateDataHash` (src/unnamed/part_002, lines 210-221).
-/

/-- `this.listingHistory?.slice(-5)`: optional chaining yields `undefined` for
a nullish receiver; an array keeps its last five entries; a string keeps its
last five characters.  Other receivers would throw in JavaScript — the schema
types `listingHistory` as an array, and no claim evaluates that branch, so the
model leaves such values unchanged. -/
def jsSliceLast5 : JsValue → JsValue
  | .null => .undef
  | .undef => .undef
  | .arr xs => .arr (xs.drop (xs.length - 5))
  | .str s => .str (String.mk (s.data.drop (s.data.length - 5)))
  | other => other

/-- `caseSchema.methods.generateDataHash` (part_002, lines 210-221), modelled
up to the final MD5 step exactly as `generateDataHash` above: the fingerprint
is the `JSON.stringify` input string, with `listingHistory` truncated to its
last five entries and no other normalization. -/
def caseModelGenerateDataHash (host : JsHost) (c : JsValue) : String :=
  (jsonStringify host (.obj
    [("caseStatus", getField c "caseStatus"),
     ("nextHearingDate", getField c "nextHearingDate"),
     ("stageOfCase", getField c "stageOfCase"),
     ("coram", getField c "coram"),
     ("iaApplications", getField c "iaApplications"),
     ("listingHistory", jsSliceLast5 (getField c "listingHistory"))])).getD ""

/-!
Embedding of `src/services/monitoringService.js` and
`src/services/whatsappService.js`.

External collaborators (the persistence queries, the per-case fetch/compare
pipeline, the notification layer, the outbound transport) are the `await`ed
calls of the source; their results are supplied through a `CycleEnv` record.
Timestamps are `Nat`.  Inter-batch `delay(...)` suspensions are observable
only through how many times they are invoked, which the model counts.
-/

/-- The orchestrator's mutable run state (constructor, lines 20-24). -/
structure RunState where
  isRunning : Bool
  lastRunTime : Option Nat
  lastRunStatus : Option String
  runCount : Nat
  errorCount : Nat
deriving DecidableEq, Repr

/-- Results of the `await`ed collaborator calls a cycle performs, in source
order: the two candidate queries inside `getCasesToCheck` (lines 156-170),
the per-case pipeline `processCase` (fetch + detect + persist, lines
221-259, whose thrown errors `processBatch` catches per case), and the
notification step (line 112; modelled as fallible — a rejection here is what
the cycle-level catch of lines 129-141 handles). -/
structure CycleEnv (κ γ : Type) where
  batchSize : Nat
  casesQuery : Except String (List κ)
  subscribedQuery : List κ → Except String (List κ)
  processCase : κ → Except String (Option γ)
  processNotifications : List γ → Except String Unit

/-- `MonitoringService.getCasesToCheck` (lines 151-178): both persistence
queries run inside a try/catch whose handler returns the empty list, so a
failing query can never escape this function. -/
def getCasesToCheck {κ γ : Type} (env : CycleEnv κ γ) : List κ :=
  match env.casesQuery with
  | .error _ => []
  | .ok cases =>
    match env.subscribedQuery cases with
    | .error _ => []
    | .ok subscribedCases => cases ++ subscribedCases

/-- The slicing loop of `createBatches`, driven by explicit fuel: with a
positive batch size every iteration consumes at least one element, so
`cases.length` iterations always suffice. -/
def createBatchesAux {α : Type} : Nat → List α → Nat → List (List α)
  | 0, _, _ => []
  | _, [], _ => []
  | fuel + 1, cases, batchSize => cases.take batchSize :: createBatchesAux fuel (cases.drop batchSize) batchSize

/-- `MonitoringService.createBatches` (lines 186-192).  A zero batch size
would loop forever in the source and is unreachable (`parseInt(...) || 5`
and `updateConfig` keep it positive); the model returns `[]` there. -/
def createBatches {α : Type} (cases : List α) (batchSize : Nat) : List (List α) :=
  if batchSize = 0 then [] else createBatchesAux cases.length cases batchSize

/-- `MonitoringService.processBatch` (lines 199-214): each case is processed
inside a try/catch, so a per-case failure is logged and skipped and never
aborts the batch. -/
def processBatch {κ γ : Type} (proc : κ → Except String (Option γ)) : List κ → List γ
  | [] => []
  | caseDoc :: rest =>
    match proc caseDoc with
    | .ok (some changes) => changes :: processBatch proc rest
    | .ok none => processBatch proc rest
    | .error _ => processBatch proc rest

/-- The batch loop of `runMonitoringCycle` (lines 98-109): process each batch
in order, collecting changes, and invoke the inter-batch `delay` after every
batch except the last (line 106).  Returns the collected changes and the
number of delay invocations. -/
def runBatches {κ γ : Type} (proc : κ → Except String (Option γ)) : List (List κ) → List γ × Nat
  | [] => ([], 0)
  | [batch] => (processBatch proc batch, 0)
  | batch :: next :: rest =>
    let result := runBatches proc (next :: rest)
    (processBatch proc batch ++ result.1, result.2 + 1)

/-- One cycle's observable outcome: the run state after the `finally`, the
returned `status` string, the collected changes, the number of inter-batch
delays, and whether the admin error alert (`sendErrorNotification`,
lines 732-752, which swallows its own failures) was invoked. -/
structure CycleOutcome (γ : Type) where
  state : RunState
  status : String
  changes : List γ
  delayCount : Nat
  adminAlertAttempted : Bool

/-- `MonitoringService.runMonitoringCycle` (lines 71-145): the reentrancy
guard (72-75) returns a skipped result before any counter is touched; the
zero-candidate path returns early at line 89 without updating
`lastRunTime`/`lastRunStatus`; normal completion sets them (118-119); the
catch block (129-141) bumps `errorCount`, marks the run `error` and attempts
one admin alert; the `finally` (142-144) clears `isRunning` on every path. -/
def runMonitoringCycle {κ γ : Type} (env : CycleEnv κ γ) (s : RunState) (startTime : Nat) : CycleOutcome γ :=
  if s.isRunning then
    { state := s, status := "skipped", changes := [], delayCount := 0, adminAlertAttempted := false }
  else
    let s1 : RunState := { s with isRunning := true, runCount := s.runCount + 1 }
    let casesToCheck := getCasesToCheck env
    if casesToCheck.isEmpty then
      { state := { s1 with isRunning := false }, status := "completed", changes := [],
        delayCount := 0, adminAlertAttempted := false }
    else
      let batches := createBatches casesToCheck env.batchSize
      let processed := runBatches env.processCase batches
      match env.processNotifications processed.1 with
      | .ok _ =>
        { state := { s1 with isRunning := false, lastRunTime := some startTime, lastRunStatus := some "success" },
          status := "completed", changes := processed.1, delayCount := processed.2,
          adminAlertAttempted := false }
      | .error _ =>
        { state := { s1 with isRunning := false, errorCount := s1.errorCount + 1, lastRunStatus := some "error" },
          status := "error", changes := [], delayCount := processed.2,
          adminAlertAttempted := true }

/-- `/^91[6-9]\d{9}$/` (whatsappService.js, line 327). -/
def validIndianNumber (s : String) : Bool :=
  match s.data with
  | '9' :: '1' :: c :: rest => ('6' ≤ c && c ≤ '9') && rest.length = 9 && rest.all Char.isDigit
  | _ => false

/-- `WhatsAppService.validatePhoneNumber` (lines 313-332): strip non-digits,
prefix `91` to bare 10-digit numbers, then enforce the Indian mobile format,
throwing on violation. -/
def validatePhoneNumber (phoneNumber : String) : Except String String :=
  if phoneNumber = "" then .error "Phone number is required"
  else
    let stripped := String.mk (phoneNumber.data.filter Char.isDigit)
    let cleanNumber :=
      if !strStartsWith stripped "91" && stripped.length = 10 then "91" ++ stripped else stripped
    if validIndianNumber cleanNumber then .ok cleanNumber
    else .error ("Invalid phone number format: " ++ phoneNumber)

/-- `numbersArray.map(number => this.validatePhoneNumber(number))`: the first
thrown validation error aborts the map. -/
def validateNumbers : List String → Except String (List String)
  | [] => .ok []
  | n :: rest => do
    let c ← validatePhoneNumber n
    let cs ← validateNumbers rest
    .ok (c :: cs)

/-- The object `WhatsAppService.sendMessage` resolves with.  The source never
attaches a `messageId` property to it, so reading one yields `undefined`
(`none`). -/
structure SendMsgResult where
  success : Bool
  errorText : Option String
  messageId : Option String
deriving DecidableEq, Repr

/-- `WhatsAppService.sendMessage` (lines 174-228).  A missing API key throws
(175-177) before the try block; an empty recipient list resolves with a
`No recipients` failure (188-191); a validation throw is caught by the
function's own catch and resolved as a failure object (219-227); and the
transport call's rejection is likewise caught and resolved as
`{success: false, error}` — a transport failure never rejects the promise. -/
def whatsappSendMessage (apiKey : Option String) (transport : Except String String)
    (numbers : List String) (_message : String) : Except String SendMsgResult :=
  if apiKey.isNone then .error "WhatsApp API key not configured"
  else if numbers.length = 0 then
    .ok { success := false, errorText := some "No recipients", messageId := none }
  else
    match validateNumbers numbers with
    | .error e => .ok { success := false, errorText := some e, messageId := none }
    | .ok _cleanNumbers =>
      match transport with
      | .ok _response => .ok { success := true, errorText := none, messageId := none }
      | .error e => .ok { success := false, errorText := some e, messageId := none }

/-- Per-subscription delivery bookkeeping (`UserCase` fields
`lastNotificationSent` and `notificationCount`). -/
structure SubBookkeeping where
  lastNotificationSent : Option Nat
  notificationCount : Nat
deriving DecidableEq, Repr

/-- The per-recipient delivery record built by
`sendPersonalizedNotification` (lines 368-375 and 379-386): the success-path
object copies `result.success` and `result.messageId` and has no `error`
property; the catch-path object is marked failed and carries the error text. -/
structure PersonalOutcome where
  success : Bool
  messageId : Option String
  errorText : Option String
deriving DecidableEq, Repr

/-- `MonitoringService.sendPersonalizedNotification` (lines 356-388).
`sendResult` is the settled `whatsappService.sendMessage` promise and
`subUpdate` the `UserCase.findByIdAndUpdate` bookkeeping write; a rejection
of either lands in the catch block (377-387), which records a failed outcome
with the error text and leaves the bookkeeping untouched.  When both
resolve, the subscription counter is incremented and the last-sent timestamp
set regardless of `result.success` (363-366).  Message rendering
(`generatePersonalizedMessage`) is presentational and not modelled. -/
def sendPersonalizedNotification (sendResult : Except String SendMsgResult)
    (subUpdate : Except String Unit) (now : Nat) (sub : SubBookkeeping) :
    PersonalOutcome × SubBookkeeping :=
  match sendResult with
  | .error e => ({ success := false, messageId := none, errorText := some e }, sub)
  | .ok result =>
    match subUpdate with
    | .error e => ({ success := false, messageId := none, errorText := some e }, sub)
    | .ok _ =>
      ({ success := result.success, messageId := result.messageId, errorText := none },
       { lastNotificationSent := some now, notificationCount := sub.notificationCount + 1 })

/-!
Proof infrastructure: how the significant-field fold of `detectChanges`
relates each `ChangeSet` component to the per-field comparison results.
-/

/-- Whether `compareField` flags the named field between two snapshots. -/
def fieldChanged (host : JsHost) (oldCaseData newCaseData : JsValue) (f : String) : Bool :=
  (compareField host f (getField oldCaseData f) (getField newCaseData f)).hasChange

theorem detectStep_hasChanges (host : JsHost) (o n : JsValue) (acc : ChangeSet) (f : String) :
    (detectStep host o n acc f).hasChanges = (acc.hasChanges || fieldChanged host o n f) := by
  simp only [detectStep, fieldChanged]
  cases h : (compareField host f (getField o f) (getField n f)).hasChange <;>
    cases hc : criticalFields.contains f <;> simp [h, hc]

theorem detectStep_hasCriticalChanges (host : JsHost) (o n : JsValue) (acc : ChangeSet) (f : String) :
    (detectStep host o n acc f).hasCriticalChanges
      = (acc.hasCriticalChanges || (fieldChanged host o n f && criticalFields.contains f)) := by
  simp only [detectStep, fieldChanged]
  cases h : (compareField host f (getField o f) (getField n f)).hasChange <;>
    cases hc : criticalFields.contains f <;> simp [h, hc]

theorem detectStep_changedFields (host : JsHost) (o n : JsValue) (acc : ChangeSet) (f : String) :
    (detectStep host o n acc f).changedFields
      = acc.changedFields ++ (if fieldChanged host o n f then [f] else []) := by
  by_cases h : (compareField host f (getField o f) (getField n f)).hasChange = true <;>
    by_cases hc : f ∈ criticalFields <;>
      simp [detectStep, fieldChanged, h, hc, apply_ite ChangeSet.changedFields]

theorem detectStep_criticalChanges (host : JsHost) (o n : JsValue) (acc : ChangeSet) (f : String) :
    (detectStep host o n acc f).criticalChanges
      = acc.criticalChanges ++ (if fieldChanged host o n f && criticalFields.contains f then [f] else []) := by
  by_cases h : (compareField host f (getField o f) (getField n f)).hasChange = true <;>
    by_cases hc : f ∈ criticalFields <;>
      simp [detectStep, fieldChanged, h, hc, apply_ite ChangeSet.criticalChanges]

theorem foldl_detectStep_hasChanges (host : JsHost) (o n : JsValue) :
    ∀ (l : List String) (acc : ChangeSet),
      (l.foldl (detectStep host o n) acc).hasChanges = (acc.hasChanges || l.any (fieldChanged host o n))
  | [], acc => by simp
  | f :: rest, acc => by
    rw [List.foldl_cons, foldl_detectStep_hasChanges host o n rest, detectStep_hasChanges]
    simp [Bool.or_assoc]

theorem foldl_detectStep_hasCriticalChanges (host : JsHost) (o n : JsValue) :
    ∀ (l : List String) (acc : ChangeSet),
      (l.foldl (detectStep host o n) acc).hasCriticalChanges
        = (acc.hasCriticalChanges || l.any (fun f => fieldChanged host o n f && criticalFields.contains f))
  | [], acc => by simp
  | f :: rest, acc => by
    rw [List.foldl_cons, foldl_detectStep_hasCriticalChanges host o n rest, detectStep_hasCriticalChanges]
    simp [Bool.or_assoc]

theorem foldl_detectStep_changedFields (host : JsHost) (o n : JsValue) :
    ∀ (l : List String) (acc : ChangeSet),
      (l.foldl (detectStep host o n) acc).changedFields
        = acc.changedFields ++ l.filter (fieldChanged host o n)
  | [], acc => by simp
  | f :: rest, acc => by
    rw [List.foldl_cons, foldl_detectStep_changedFields host o n rest, detectStep_changedFields]
    cases h : fieldChanged host o n f <;> simp [h, List.filter_cons]

theorem foldl_detectStep_criticalChanges (host : JsHost) (o n : JsValue) :
    ∀ (l : List String) (acc : ChangeSet),
      (l.foldl (detectStep host o n) acc).criticalChanges
        = acc.criticalChanges ++ l.filter (fun f => fieldChanged host o n f && criticalFields.contains f)
  | [], acc => by simp
  | f :: rest, acc => by
    rw [List.foldl_cons, foldl_detectStep_criticalChanges host o n rest, detectStep_criticalChanges]
    simp only [List.filter_cons]
    cases h : fieldChanged host o n f && criticalFields.contains f <;>
      simp only [h, Bool.false_eq_true, if_false, if_true, List.append_assoc,
        List.append_nil, List.nil_append, List.singleton_append]

theorem detectChangesCore_hasChanges (host : JsHost) (o n : JsValue) :
    (detectChangesCore host o n).hasChanges = significantFields.any (fieldChanged host o n) := by
  simp [detectChangesCore, foldl_detectStep_hasChanges, initialChangeSet]

theorem detectChangesCore_hasCriticalChanges (host : JsHost) (o n : JsValue) :
    (detectChangesCore host o n).hasCriticalChanges
      = significantFields.any (fun f => fieldChanged host o n f && criticalFields.contains f) := by
  simp [detectChangesCore, foldl_detectStep_hasCriticalChanges, initialChangeSet]

theorem detectChangesCore_changedFields (host : JsHost) (o n : JsValue) :
    (detectChangesCore host o n).changedFields = significantFields.filter (fieldChanged host o n) := by
  simp [detectChangesCore, foldl_detectStep_changedFields, initialChangeSet]

theorem detectChangesCore_criticalChanges (host : JsHost) (o n : JsValue) :
    (detectChangesCore host o n).criticalChanges
      = significantFields.filter (fun f => fieldChanged host o n f && criticalFields.contains f) := by
  simp [detectChangesCore, foldl_detectStep_criticalChanges, initialChangeSet]

theorem detectChangesCore_priority (host : JsHost) (o n : JsValue) :
    (detectChangesCore host o n).notificationPriority
      = determineNotificationPriority (significantFields.foldl (detectStep host o n) initialChangeSet) := by
  simp [detectChangesCore]

/-!
Concrete instances.  `sampleHost` is a stand-in for the JavaScript engine
that agrees with it on every value the closed theorems below evaluate: the
one date string they parse is a valid date there, and no closed theorem
compares a host-formatted date string against anything.
-/

def sampleHost : JsHost where
  parseDate := fun v =>
    match v with
    | .str "2025-01-01" => some 1735689600000
    | .num n => some n
    | _ => none
  dateToString := fun t => toString t
  dateToISOString := fun t => toString t
  formatDateLocale := fun t => toString t

theorem toArray_nullCoerce (v : JsValue) :
    toArray (if v.isNullish then .str "" else v) = toArray v := by
  cases v <;> rfl

theorem compareArrays_length (o n : JsValue) :
    compareArrays o n = decide ((toArray o).length ≠ (toArray n).length) := by
  unfold compareArrays
  by_cases h : (toArray o).length = (toArray n).length <;> simp [h]

/-- A snapshot whose listing history has two entries. -/
def oldShrinkSnap : JsValue := .obj [("listingHistory", .arr [.str "a", .str "b"])]

/-- The same snapshot with the history shrunk to one entry. -/
def newShrinkSnap : JsValue := .obj [("listingHistory", .arr [.str "a"])]

/-- C1 (counterexample): the claim says a strictly shorter new list is not a
change, but on a snapshot pair whose listing history shrinks from two entries
to one the detector flags `listingHistory` as changed. -/
theorem C1_array_shrink_counterexample :
    (toArray (getField oldShrinkSnap "listingHistory")).length = 2 ∧
    (toArray (getField newShrinkSnap "listingHistory")).length = 1 ∧
    (detectChangesCore sampleHost oldShrinkSnap newShrinkSnap).hasChanges = true ∧
    (detectChangesCore sampleHost oldShrinkSnap newShrinkSnap).changedFields = ["listingHistory"] :=
  ⟨rfl, rfl, rfl, rfl⟩

/-- C1 (amended): the detector flags a list field (`listingHistory`,
`iaApplications`) as changed exactly when the two lists' lengths differ —
growth and shrinkage both count, while equal length (even reordered) never
does.  Nullish values compare as empty lists. -/
theorem C1_array_length_change_amended (host : JsHost) (oldValue newValue : JsValue) :
    ((compareField host "listingHistory" oldValue newValue).hasChange
        = decide ((toArray oldValue).length ≠ (toArray newValue).length)) ∧
    ((compareField host "iaApplications" oldValue newValue).hasChange
        = decide ((toArray oldValue).length ≠ (toArray newValue).length)) := by
  constructor <;>
    simp [compareField, compareArrays_length, toArray_nullCoerce]

/-- C5 (counterexample): the claim says a non-object-like argument makes
`detectChanges` fail, but with a number as the old snapshot the call
succeeds (returns `.ok`) even though the service's own `validateInput`
rejects that pair. -/
theorem C5_nonobject_counterexample :
    validateInput (.num 5) (.obj [("caseStatus", .str "Pending")]) = false ∧
    (detectChanges sampleHost (.num 5) (.obj [("caseStatus", .str "Pending")])).isOk = true :=
  ⟨rfl, rfl⟩

/-- C5 (amended): `detectChanges` fails (with a thrown `TypeError`, not a
dedicated `InvalidInputError` — `validateInput` is never invoked on this
path) exactly when an argument is null/undefined; any non-nullish argument,
object-like or not, succeeds.  The failure is contained per case: the
orchestrator's `processBatch` turns every per-case error into a skipped
case and never propagates it, so the cycle continues. -/
theorem C5_detector_error_containment_amended (host : JsHost) (oldData newData : JsValue) :
    ((detectChanges host oldData newData).isOk
        = (!oldData.isNullish && !newData.isNullish)) ∧
    (∀ {κ γ : Type} (proc : κ → Except String (Option γ)) (batch : List κ),
        processBatch proc batch
          = batch.filterMap fun c =>
              match proc c with
              | .ok result => result
              | .error _ => none) := by
  constructor
  · cases ho : oldData.isNullish <;> cases hn : newData.isNullish <;>
      simp [detectChanges, ho, hn, Except.isOk, Except.toBool]
  · intro κ γ proc batch
    induction batch with
    | nil => rfl
    | cons c rest ih =>
      cases h : proc c with
      | ok result => cases result <;> simp [processBatch, h, ih]
      | error e => simp [processBatch, h, ih]

/-- A snapshot with six listing-history entries; only the oldest (`h0`)
differs from `newHistSnap`. -/
def oldHistSnap : JsValue := .obj
  [("caseStatus", .str "Pending"), ("nextHearingDate", .str "2025-03-10"),
   ("firstHearingDate", .str "2024-01-05"), ("stageOfCase", .str "Hearing"),
   ("coram", .str "Justice A"), ("orderDetails", .str "none"),
   ("listingHistory", .arr [.str "h0", .str "h1", .str "h2", .str "h3", .str "h4", .str "h5"]),
   ("iaApplications", .arr [.str "ia1"])]

/-- `oldHistSnap` with the oldest listing-history entry replaced. -/
def newHistSnap : JsValue := .obj
  [("caseStatus", .str "Pending"), ("nextHearingDate", .str "2025-03-10"),
   ("firstHearingDate", .str "2024-01-05"), ("stageOfCase", .str "Hearing"),
   ("coram", .str "Justice A"), ("orderDetails", .str "none"),
   ("listingHistory", .arr [.str "x0", .str "h1", .str "h2", .str "h3", .str "h4", .str "h5"]),
   ("iaApplications", .arr [.str "ia1"])]

/-- C6 (counterexample): two snapshots agreeing on status, dates, stage,
coram, IA applications and the last five listing-history entries, differing
only in an older entry, get **different** fingerprints from the
change-detection service's `generateDataHash` — that function sorts arrays
but never truncates them to the last five entries. -/
theorem C6_service_hash_counterexample :
    getField oldHistSnap "caseStatus" = getField newHistSnap "caseStatus" ∧
    getField oldHistSnap "nextHearingDate" = getField newHistSnap "nextHearingDate" ∧
    getField oldHistSnap "firstHearingDate" = getField newHistSnap "firstHearingDate" ∧
    getField oldHistSnap "stageOfCase" = getField newHistSnap "stageOfCase" ∧
    getField oldHistSnap "coram" = getField newHistSnap "coram" ∧
    getField oldHistSnap "iaApplications" = getField newHistSnap "iaApplications" ∧
    jsSliceLast5 (getField oldHistSnap "listingHistory")
      = jsSliceLast5 (getField newHistSnap "listingHistory") ∧
    generateDataHash sampleHost oldHistSnap ≠ generateDataHash sampleHost newHistSnap :=
  ⟨rfl, rfl, rfl, rfl, rfl, rfl, rfl, by decide⟩

/-- C6 (amended): only the Case model's own hash method
(`caseSchema.methods.generateDataHash`) truncates the listing history to its
last five entries before hashing: two snapshots agreeing on `caseStatus`,
`nextHearingDate`, `stageOfCase`, `coram`, `iaApplications` and on the last
five listing-history entries produce the same model-level fingerprint even
when older listing-history entries differ.  The service-level
`generateDataHash` used by `detectChanges` performs no such truncation (see
the counterexample). -/
theorem C6_model_hash_truncation_amended (host : JsHost) (a b : JsValue)
    (h1 : getField a "caseStatus" = getField b "caseStatus")
    (h2 : getField a "nextHearingDate" = getField b "nextHearingDate")
    (h3 : getField a "stageOfCase" = getField b "stageOfCase")
    (h4 : getField a "coram" = getField b "coram")
    (h5 : getField a "iaApplications" = getField b "iaApplications")
    (h6 : jsSliceLast5 (getField a "listingHistory") = jsSliceLast5 (getField b "listingHistory")) :
    caseModelGenerateDataHash host a = caseModelGenerateDataHash host b := by
  unfold caseModelGenerateDataHash
  rw [h1, h2, h3, h4, h5, h6]

/-- Closed instance of the amended C6 theorem at the two concrete snapshots
of the counterexample: the model-level hash does agree on them. -/
theorem C6_model_hash_truncation_amended_witness :
    jsSliceLast5 (getField oldHistSnap "listingHistory")
        = jsSliceLast5 (getField newHistSnap "listingHistory") ∧
    caseModelGenerateDataHash sampleHost oldHistSnap
        = caseModelGenerateDataHash sampleHost newHistSnap :=
  ⟨rfl, C6_model_hash_truncation_amended sampleHost oldHistSnap newHistSnap rfl rfl rfl rfl rfl rfl⟩

/-- C2 (counterexample): a transport failure makes `sendMessage` resolve with
`{success: false, error}` rather than throw, so the dispatcher still
increments the subscription counter (0 becomes 1), still sets the last-sent
timestamp, and records an outcome that carries no error text. -/
theorem C2_transport_failure_counterexample :
    whatsappSendMessage (some "key") (.error "connect ETIMEDOUT") ["919876543210"] "update"
        = .ok { success := false, errorText := some "connect ETIMEDOUT", messageId := none } ∧
    sendPersonalizedNotification
        (whatsappSendMessage (some "key") (.error "connect ETIMEDOUT") ["919876543210"] "update")
        (.ok ()) 500 { lastNotificationSent := none, notificationCount := 0 }
      = ({ success := false, messageId := none, errorText := none },
         { lastNotificationSent := some 500, notificationCount := 1 }) :=
  ⟨rfl, rfl⟩

/-- C2 (amended): a transport failure is swallowed by `sendMessage` into a
resolved `{success: false, error}` value, after which the dispatcher records
a failed outcome **without** the error text and **does** increment the
subscription counter and set the last-sent timestamp.  Only a send step that
throws (for example, a missing API key) takes the catch path that records
the error text and leaves the bookkeeping untouched. -/
theorem C2_transport_failure_amended
    (key : String) (numbers : List String) (msg : String) (e : String)
    (clean : List String) (hv : validateNumbers numbers = .ok clean)
    (hne : numbers.length ≠ 0) (now : Nat) (sub : SubBookkeeping) :
    whatsappSendMessage (some key) (.error e) numbers msg
        = .ok { success := false, errorText := some e, messageId := none } ∧
    sendPersonalizedNotification (whatsappSendMessage (some key) (.error e) numbers msg)
        (.ok ()) now sub
      = ({ success := false, messageId := none, errorText := none },
         { lastNotificationSent := some now, notificationCount := sub.notificationCount + 1 }) ∧
    (∀ (thrown : String) (subUpdate : Except String Unit),
        sendPersonalizedNotification (.error thrown) subUpdate now sub
          = ({ success := false, messageId := none, errorText := some thrown }, sub)) ∧
    whatsappSendMessage none (.error e) numbers msg = .error "WhatsApp API key not configured" := by
  have hsend : whatsappSendMessage (some key) (.error e) numbers msg
      = .ok { success := false, errorText := some e, messageId := none } := by
    simp [whatsappSendMessage, hne, hv]
  refine ⟨hsend, ?_, fun thrown subUpdate => rfl, rfl⟩
  rw [hsend]
  rfl

/-- Closed instance of the amended C2 theorem. -/
theorem C2_transport_failure_amended_witness :
    validateNumbers ["919876543210"] = .ok ["919876543210"] ∧
    (["919876543210"] : List String).length ≠ 0 ∧
    sendPersonalizedNotification
        (whatsappSendMessage (some "key") (.error "timeout of 30000ms exceeded") ["919876543210"] "msg")
        (.ok ()) 9 { lastNotificationSent := none, notificationCount := 4 }
      = ({ success := false, messageId := none, errorText := none },
         { lastNotificationSent := some 9, notificationCount := 5 }) :=
  ⟨rfl, by decide,
   (C2_transport_failure_amended "key" ["919876543210"] "msg" "timeout of 30000ms exceeded"
      ["919876543210"] rfl (by decide) 9 { lastNotificationSent := none, notificationCount := 4 }).2.1⟩

/-- A run state that is mid-cycle. -/
def busyState : RunState :=
  { isRunning := true, lastRunTime := some 1, lastRunStatus := some "success",
    runCount := 3, errorCount := 1 }

/-- A run state before any cycle. -/
def freshRunState : RunState :=
  { isRunning := false, lastRunTime := none, lastRunStatus := none,
    runCount := 0, errorCount := 0 }

/-- Seven candidates with batch size three and fully succeeding collaborators. -/
def envSeven : CycleEnv Nat Nat :=
  { batchSize := 3, casesQuery := .ok [1, 2, 3, 4, 5, 6, 7],
    subscribedQuery := fun _ => .ok [], processCase := fun c => .ok (some c),
    processNotifications := fun _ => .ok () }

/-- An environment whose candidate-selection persistence query raises. -/
def envCandidatesFail : CycleEnv Nat Nat :=
  { batchSize := 5, casesQuery := .error "MongoNetworkError: connection refused",
    subscribedQuery := fun _ => .ok [], processCase := fun c => .ok (some c),
    processNotifications := fun _ => .ok () }

/-- An environment whose notification step rejects. -/
def envNotifyFail : CycleEnv Nat Nat :=
  { batchSize := 5, casesQuery := .ok [1, 2],
    subscribedQuery := fun _ => .ok [], processCase := fun c => .ok (some c),
    processNotifications := fun _ => .error "unexpected rejection" }

/-- An environment with no candidate cases at all. -/
def envNoCandidates : CycleEnv Nat Nat :=
  { batchSize := 5, casesQuery := .ok [],
    subscribedQuery := fun _ => .ok [], processCase := fun c => .ok (some c),
    processNotifications := fun _ => .ok () }

/-- C3 (counterexample): when the candidate-selection persistence query
raises, the cycle does **not** become cycle-fatal — `getCasesToCheck`
swallows the error into an empty candidate list and the run completes
normally: `errorCount` stays 0, `lastRunStatus` is untouched, no admin alert
is attempted, and the result is a completion, not an error. -/
theorem C3_candidate_failure_counterexample :
    envCandidatesFail.casesQuery = .error "MongoNetworkError: connection refused" ∧
    (runMonitoringCycle envCandidatesFail freshRunState 1000).status = "completed" ∧
    (runMonitoringCycle envCandidatesFail freshRunState 1000).state.errorCount = 0 ∧
    (runMonitoringCycle envCandidatesFail freshRunState 1000).state.lastRunStatus = none ∧
    (runMonitoringCycle envCandidatesFail freshRunState 1000).adminAlertAttempted = false :=
  ⟨rfl, rfl, rfl, rfl, rfl⟩

/-- C3 (amended): a failing candidate-selection query is caught inside
`getCasesToCheck` and turned into an empty candidate list, so the cycle
completes as the zero-candidate path with counters and status untouched and
no admin alert; the cycle-fatal handling (errorCount incremented,
`lastRunStatus = error`, one admin alert attempted, an error result) applies
only to an exception escaping a later step of the cycle body, such as the
notification step rejecting. -/
theorem C3_cycle_error_paths_amended {κ γ : Type} (env : CycleEnv κ γ) (s : RunState)
    (startTime : Nat) (hrun : s.isRunning = false) :
    (∀ e, env.casesQuery = .error e →
        (runMonitoringCycle env s startTime).status = "completed" ∧
        (runMonitoringCycle env s startTime).state
          = { s with isRunning := false, runCount := s.runCount + 1 } ∧
        (runMonitoringCycle env s startTime).adminAlertAttempted = false) ∧
    (∀ e, (getCasesToCheck env).isEmpty = false →
        env.processNotifications
            (runBatches env.processCase (createBatches (getCasesToCheck env) env.batchSize)).1
          = .error e →
        (runMonitoringCycle env s startTime).status = "error" ∧
        (runMonitoringCycle env s startTime).state.errorCount = s.errorCount + 1 ∧
        (runMonitoringCycle env s startTime).state.lastRunStatus = some "error" ∧
        (runMonitoringCycle env s startTime).adminAlertAttempted = true ∧
        (runMonitoringCycle env s startTime).state.isRunning = false) := by
  constructor
  · intro e he
    have hempty : getCasesToCheck env = [] := by simp [getCasesToCheck, he]
    refine ⟨?_, ?_, ?_⟩ <;> simp [runMonitoringCycle, hrun, hempty]
  · intro e hne herr
    refine ⟨?_, ?_, ?_, ?_, ?_⟩ <;> simp [runMonitoringCycle, hrun, hne, herr]

/-- Closed instance of the amended C3 theorem, one conjunct per error path. -/
theorem C3_cycle_error_paths_amended_witness :
    freshRunState.isRunning = false ∧
    (runMonitoringCycle envCandidatesFail freshRunState 7).status = "completed" ∧
    (getCasesToCheck envNotifyFail).isEmpty = false ∧
    (runMonitoringCycle envNotifyFail freshRunState 7).status = "error" ∧
    (runMonitoringCycle envNotifyFail freshRunState 7).state.errorCount = 1 :=
  ⟨rfl,
   ((C3_cycle_error_paths_amended envCandidatesFail freshRunState 7 rfl).1 _ rfl).1,
   rfl,
   ((C3_cycle_error_paths_amended envNotifyFail freshRunState 7 rfl).2 "unexpected rejection" rfl rfl).1,
   by
     have h := ((C3_cycle_error_paths_amended envNotifyFail freshRunState 7 rfl).2
       "unexpected rejection" rfl rfl).2.1
     simpa using h⟩

/-- C4 (counterexample): the zero-candidate path is a normal (non-skipped,
non-error) completion, yet it returns early without setting
`lastRunStatus = success` or `lastRunTime` (both keep their prior values;
here they stay unset). -/
theorem C4_zero_candidate_counterexample :
    getCasesToCheck envNoCandidates = [] ∧
    (runMonitoringCycle envNoCandidates freshRunState 1000).status = "completed" ∧
    (runMonitoringCycle envNoCandidates freshRunState 1000).state.lastRunStatus ≠ some "success" ∧
    (runMonitoringCycle envNoCandidates freshRunState 1000).state.lastRunTime = none ∧
    (runMonitoringCycle envNoCandidates freshRunState 1000).state.isRunning = false :=
  ⟨rfl, rfl, by decide, rfl, rfl⟩

/-- C4 (amended): on a normal completion with at least one candidate case
(and a notification step that resolves), the orchestrator sets
`lastRunStatus` to `success` and `lastRunTime` to the cycle's start time,
and `isRunning` is false afterwards; the zero-candidate completion instead
leaves `lastRunStatus`/`lastRunTime` at their prior values (see the
counterexample), with `isRunning` still false. -/
theorem C4_normal_completion_amended {κ γ : Type} (env : CycleEnv κ γ) (s : RunState)
    (startTime : Nat) (hrun : s.isRunning = false)
    (hne : (getCasesToCheck env).isEmpty = false)
    (hok : env.processNotifications
        (runBatches env.processCase (createBatches (getCasesToCheck env) env.batchSize)).1
      = .ok ()) :
    (runMonitoringCycle env s startTime).status = "completed" ∧
    (runMonitoringCycle env s startTime).state.lastRunStatus = some "success" ∧
    (runMonitoringCycle env s startTime).state.lastRunTime = some startTime ∧
    (runMonitoringCycle env s startTime).state.isRunning = false := by
  refine ⟨?_, ?_, ?_, ?_⟩ <;> simp [runMonitoringCycle, hrun, hne, hok]

/-- Closed instance of the amended C4 theorem. -/
theorem C4_normal_completion_amended_witness :
    (getCasesToCheck envSeven).isEmpty = false ∧
    (runMonitoringCycle envSeven freshRunState 77).state.lastRunStatus = some "success" ∧
    (runMonitoringCycle envSeven freshRunState 77).state.lastRunTime = some 77 :=
  ⟨rfl, (C4_normal_completion_amended envSeven freshRunState 77 rfl rfl rfl).2.1,
   (C4_normal_completion_amended envSeven freshRunState 77 rfl rfl rfl).2.2.1⟩

/-- C9: invoking the run-cycle operation while a cycle is in flight returns
an immediate `skipped` result and leaves the run state exactly as it was —
`runCount`, `errorCount`, `lastRunTime` and `lastRunStatus` untouched — and
performs no batch processing, no delays and no alerting. -/
theorem C9_reentrancy_guard {κ γ : Type} (env : CycleEnv κ γ) (s : RunState)
    (startTime : Nat) (h : s.isRunning = true) :
    runMonitoringCycle env s startTime
      = { state := s, status := "skipped", changes := [], delayCount := 0,
          adminAlertAttempted := false } := by
  simp [runMonitoringCycle, h]

/-- Closed instance of the reentrancy guard at a mid-cycle state. -/
theorem C9_reentrancy_guard_witness :
    busyState.isRunning = true ∧
    runMonitoringCycle envSeven busyState 42
      = { state := busyState, status := "skipped", changes := [], delayCount := 0,
          adminAlertAttempted := false } :=
  ⟨rfl, C9_reentrancy_guard envSeven busyState 42 rfl⟩

theorem createBatchesAux_join {α : Type} (n : Nat) (hn : 0 < n) :
    ∀ (fuel : Nat) (cs : List α), cs.length ≤ fuel → (createBatchesAux fuel cs n).flatten = cs := by
  intro fuel
  induction fuel with
  | zero =>
    intro cs h
    cases cs with
    | nil => rfl
    | cons x rest => simp at h
  | succ f ih =>
    intro cs h
    cases cs with
    | nil => rfl
    | cons x rest =>
      have hlen : ((x :: rest).drop n).length ≤ f := by
        rw [List.length_drop]
        simp only [List.length_cons] at h ⊢
        omega
      simp only [createBatchesAux]
      rw [List.flatten_cons, ih _ hlen]
      exact List.take_append_drop n (x :: rest)

theorem createBatches_join {α : Type} (cs : List α) (n : Nat) (hn : 0 < n) :
    (createBatches cs n).flatten = cs := by
  unfold createBatches
  rw [if_neg (by omega : ¬n = 0)]
  exact createBatchesAux_join n hn cs.length cs le_rfl

theorem createBatchesAux_mem {α : Type} (n : Nat) (hn : 0 < n) :
    ∀ (fuel : Nat) (cs : List α) (b : List α),
      b ∈ createBatchesAux fuel cs n → b ≠ [] ∧ b.length ≤ n := by
  intro fuel
  induction fuel with
  | zero => intro cs b hb; simp [createBatchesAux] at hb
  | succ f ih =>
    intro cs b hb
    cases cs with
    | nil => simp [createBatchesAux] at hb
    | cons x rest =>
      simp only [createBatchesAux, List.mem_cons] at hb
      rcases hb with hb | hb
      · subst hb
        refine ⟨?_, by rw [List.length_take]; exact Nat.min_le_left n _⟩
        cases n with
        | zero => omega
        | succ m => simp [List.take_succ_cons]
      · exact ih _ _ hb

theorem createBatchesAux_ne_nil {α : Type} (fuel : Nat) (cs : List α) (n : Nat)
    (h : cs.length ≤ fuel) (hcs : cs ≠ []) : createBatchesAux fuel cs n ≠ [] := by
  cases fuel with
  | zero =>
    cases cs with
    | nil => exact absurd rfl hcs
    | cons x rest => simp at h
  | succ f =>
    cases cs with
    | nil => exact absurd rfl hcs
    | cons x rest => simp [createBatchesAux]

theorem createBatchesAux_dropLast {α : Type} (n : Nat) (hn : 0 < n) :
    ∀ (fuel : Nat) (cs : List α) (b : List α), cs.length ≤ fuel →
      b ∈ (createBatchesAux fuel cs n).dropLast → b.length = n := by
  intro fuel
  induction fuel with
  | zero => intro cs b h hb; cases cs <;> simp [createBatchesAux] at hb
  | succ f ih =>
    intro cs b h hb
    cases cs with
    | nil => simp [createBatchesAux] at hb
    | cons x rest =>
      have hlen : ((x :: rest).drop n).length ≤ f := by
        rw [List.length_drop]
        simp only [List.length_cons] at h ⊢
        omega
      simp only [createBatchesAux] at hb
      cases hrec : createBatchesAux f ((x :: rest).drop n) n with
      | nil => rw [hrec] at hb; simp at hb
      | cons y ys =>
        rw [hrec, List.dropLast_cons₂, List.mem_cons] at hb
        rcases hb with hb | hb
        · subst hb
          have hne : (x :: rest).drop n ≠ [] := by
            intro hdrop
            rw [hdrop] at hrec
            cases f <;> simp [createBatchesAux] at hrec
          have hlt : n < (x :: rest).length := by
            rcases Nat.lt_or_ge n (x :: rest).length with hlt | hge
            · exact hlt
            · exact absurd (List.drop_eq_nil_of_le hge) hne
          rw [List.length_take]
          exact Nat.min_eq_left (Nat.le_of_lt hlt)
        · exact ih _ _ hlen (by rw [hrec]; exact hb)

theorem runBatches_delayCount {κ γ : Type} (proc : κ → Except String (Option γ)) :
    ∀ (batches : List (List κ)), (runBatches proc batches).2 = batches.length - 1
  | [] => rfl
  | [_] => rfl
  | b :: b2 :: rest => by
    have ih := runBatches_delayCount proc (b2 :: rest)
    simp only [runBatches, List.length_cons] at ih ⊢
    omega

/-- C8: batch partitioning splits the candidate list into consecutive chunks
of size `batchSize` (their concatenation is the input in order, every chunk
except the last has exactly `batchSize` elements, every chunk is non-empty
and at most `batchSize` long), and the inter-batch delay runs after every
chunk except the last; with 7 candidates and `batchSize = 3` there are
exactly 3 batches of sizes 3, 3, 1 and the delay is invoked exactly twice. -/
theorem C8_batch_partitioning :
    (∀ {α : Type} (cs : List α) (n : Nat), 0 < n →
        (createBatches cs n).flatten = cs ∧
        (∀ b ∈ createBatches cs n, b ≠ [] ∧ b.length ≤ n) ∧
        (∀ b ∈ (createBatches cs n).dropLast, b.length = n)) ∧
    (∀ {κ γ : Type} (proc : κ → Except String (Option γ)) (batches : List (List κ)),
        (runBatches proc batches).2 = batches.length - 1) ∧
    (createBatches [1, 2, 3, 4, 5, 6, 7] 3).map List.length = [3, 3, 1] ∧
    (runBatches (fun c : Nat => Except.ok (some c)) (createBatches [1, 2, 3, 4, 5, 6, 7] 3)).2 = 2 := by
  refine ⟨?_, ?_, rfl, rfl⟩
  · intro α cs n hn
    have hnz : ¬n = 0 := by omega
    refine ⟨createBatches_join cs n hn, ?_, ?_⟩
    · intro b hb
      rw [createBatches, if_neg hnz] at hb
      exact createBatchesAux_mem n hn cs.length cs b hb
    · intro b hb
      rw [createBatches, if_neg hnz] at hb
      exact createBatchesAux_dropLast n hn cs.length cs b le_rfl hb
  · intro κ γ proc batches
    exact runBatches_delayCount proc batches

/-- Closed instance of the batching theorem at the spec's 7-candidate,
batch-size-3 example. -/
theorem C8_batch_partitioning_witness :
    0 < 3 ∧
    (createBatches ["a", "b", "c", "d", "e", "f", "g"] 3).flatten
      = ["a", "b", "c", "d", "e", "f", "g"] :=
  ⟨by decide, (C8_batch_partitioning.1 ["a", "b", "c", "d", "e", "f", "g"] 3 (by decide)).1⟩

theorem any_eq_true_iff_filter_ne_nil {α : Type} (p : α → Bool) (l : List α) :
    l.any p = true ↔ l.filter p ≠ [] := by
  induction l with
  | nil => simp
  | cons x xs ih => cases h : p x <;> simp [List.filter_cons, h, ih]

theorem determineNotificationPriority_eq_none_iff (c : ChangeSet) :
    determineNotificationPriority c = "none" ↔ c.hasChanges = false := by
  unfold determineNotificationPriority
  cases hc : c.hasChanges
  · simp [hc]
  · simp only [hc, Bool.not_true, Bool.false_eq_true, if_false]
    split_ifs <;> simp

/-- The old snapshot of the spec's precedence example. -/
def oldPrioSnap : JsValue := .obj [("status", .str "A"), ("nextHearingDate", .null)]

/-- The new snapshot of the spec's precedence example: only the hearing date
is set. -/
def newPrioSnap : JsValue := .obj [("status", .str "A"), ("nextHearingDate", .str "2025-01-01")]

/-- C7: the notification priority of the ChangeSet produced by
`detectChanges` follows strict top-down precedence over the per-field
comparison outcomes — `urgent` if `nextHearingDate` changed, else `high` if
`caseStatus` or `stageOfCase` changed, else `medium` if `listingHistory`
changed, else `low` if any other significant field changed, else `none`;
and on the spec's concrete example (`nextHearingDate` null → "2025-01-01",
status unchanged) the priority is `urgent`. -/
theorem C7_priority_precedence (host : JsHost) (fo fn : List (String × JsValue)) :
    ((detectChangesCore host (.obj fo) (.obj fn)).notificationPriority =
      (if fieldChanged host (.obj fo) (.obj fn) "nextHearingDate" then "urgent"
       else if fieldChanged host (.obj fo) (.obj fn) "caseStatus"
               || fieldChanged host (.obj fo) (.obj fn) "stageOfCase" then "high"
       else if fieldChanged host (.obj fo) (.obj fn) "listingHistory" then "medium"
       else if fieldChanged host (.obj fo) (.obj fn) "firstHearingDate"
               || fieldChanged host (.obj fo) (.obj fn) "coram"
               || fieldChanged host (.obj fo) (.obj fn) "orderDetails"
               || fieldChanged host (.obj fo) (.obj fn) "iaApplications" then "low"
       else "none")) ∧
    (detectChangesCore sampleHost oldPrioSnap newPrioSnap).notificationPriority = "urgent" := by
  refine ⟨?_, rfl⟩
  rw [detectChangesCore_priority]
  unfold determineNotificationPriority
  rw [foldl_detectStep_hasChanges, foldl_detectStep_hasCriticalChanges,
    foldl_detectStep_criticalChanges, foldl_detectStep_changedFields]
  simp only [initialChangeSet, significantFields, criticalFields, Bool.false_or,
    List.nil_append, List.any_cons, List.any_nil, List.filter_cons, List.filter_nil,
    Bool.or_false]
  generalize fieldChanged host (.obj fo) (.obj fn) "caseStatus" = b1
  generalize fieldChanged host (.obj fo) (.obj fn) "nextHearingDate" = b2
  generalize fieldChanged host (.obj fo) (.obj fn) "firstHearingDate" = b3
  generalize fieldChanged host (.obj fo) (.obj fn) "stageOfCase" = b4
  generalize fieldChanged host (.obj fo) (.obj fn) "coram" = b5
  generalize fieldChanged host (.obj fo) (.obj fn) "orderDetails" = b6
  generalize fieldChanged host (.obj fo) (.obj fn) "listingHistory" = b7
  generalize fieldChanged host (.obj fo) (.obj fn) "iaApplications" = b8
  revert b1 b2 b3 b4 b5 b6 b7 b8
  decide

/-- C10: the ChangeSet returned by `detectChanges` on two object-like inputs
is internally consistent: it is the `.ok` payload of the public entry point;
`hasChanges` holds iff `changedFields` is non-empty; `criticalChanges` is
`changedFields` restricted to the critical-field set; `hasCriticalChanges`
holds iff `criticalChanges` is non-empty; and the priority is `none` iff
there are no changes. -/
theorem C10_changeset_invariants (host : JsHost) (fo fn : List (String × JsValue)) :
    (detectChanges host (.obj fo) (.obj fn)
        = .ok (detectChangesCore host (.obj fo) (.obj fn))) ∧
    ((detectChangesCore host (.obj fo) (.obj fn)).hasChanges = true
        ↔ (detectChangesCore host (.obj fo) (.obj fn)).changedFields ≠ []) ∧
    ((detectChangesCore host (.obj fo) (.obj fn)).criticalChanges
        = (detectChangesCore host (.obj fo) (.obj fn)).changedFields.filter
            (fun f => criticalFields.contains f)) ∧
    ((detectChangesCore host (.obj fo) (.obj fn)).hasCriticalChanges = true
        ↔ (detectChangesCore host (.obj fo) (.obj fn)).criticalChanges ≠ []) ∧
    ((detectChangesCore host (.obj fo) (.obj fn)).notificationPriority = "none"
        ↔ (detectChangesCore host (.obj fo) (.obj fn)).hasChanges = false) := by
  refine ⟨rfl, ?_, ?_, ?_, ?_⟩
  · rw [detectChangesCore_hasChanges, detectChangesCore_changedFields]
    exact any_eq_true_iff_filter_ne_nil _ _
  · rw [detectChangesCore_criticalChanges, detectChangesCore_changedFields,
      List.filter_filter]
    exact List.filter_congr fun a _ => Bool.and_comm _ _
  · rw [detectChangesCore_hasCriticalChanges, detectChangesCore_criticalChanges]
    exact any_eq_true_iff_filter_ne_nil _ _
  · rw [detectChangesCore_priority]
    rw [determineNotificationPriority_eq_none_iff]
    rw [detectChangesCore_hasChanges, foldl_detectStep_hasChanges]
    simp [initialChangeSet]
